import Mathlib

/-!
# Verification of the especulai price-prediction system

Shallow embedding of the especulai repository: the React frontend's
normalization/fetch/hook modules (present in the repository source) and the
data-pipeline / inference core (present in the repository only through its
spec and documentation, hence modelled from the spec where noted).

JavaScript strings are embedded as `List Char`; JavaScript's Unicode case
mapping is modelled on the ASCII range (the only range exercised here).
-/

/-- A JavaScript string, embedded as a list of characters. -/
abbrev Str := List Char

/-- Convert a Lean string literal to the embedding type. -/
def str (s : String) : Str := s.data

/-- The ASCII uppercase alphabet. -/
def UPPER : Str := str "ABCDEFGHIJKLMNOPQRSTUVWXYZ"

/-- The ASCII lowercase alphabet. -/
def LOWER : Str := str "abcdefghijklmnopqrstuvwxyz"

/-- JavaScript `toLowerCase` on one character (ASCII range of the Unicode map). -/
def jsToLowerChar (c : Char) : Char :=
  (((UPPER.zip LOWER).find? (fun p => p.1 == c)).map (fun p => p.2)).getD c

/-- JavaScript `toUpperCase` on one character (ASCII range of the Unicode map). -/
def jsToUpperChar (c : Char) : Char :=
  (((LOWER.zip UPPER).find? (fun p => p.1 == c)).map (fun p => p.2)).getD c

/-- JavaScript `String.prototype.toLowerCase`. -/
def jsToLower (s : Str) : Str := s.map jsToLowerChar

/-- `c` is an ASCII uppercase letter. -/
def isUpperAscii (c : Char) : Prop := c ∈ UPPER

/-- `c` is an ASCII lowercase letter. -/
def isLowerAscii (c : Char) : Prop := c ∈ LOWER

/-- `c` is an ASCII letter. -/
def isAsciiLetter (c : Char) : Prop := c ∈ UPPER ∨ c ∈ LOWER

instance (c : Char) : Decidable (isUpperAscii c) := by unfold isUpperAscii; infer_instance
instance (c : Char) : Decidable (isLowerAscii c) := by unfold isLowerAscii; infer_instance
instance (c : Char) : Decidable (isAsciiLetter c) := by unfold isAsciiLetter; infer_instance

/-- JavaScript `split(' ')`: split on every single space character, keeping
empty components between consecutive spaces. -/
def splitSp : Str → List Str
  | [] => [[]]
  | c :: rest =>
    if c = ' ' then [] :: splitSp rest
    else
      match splitSp rest with
      | [] => [[c]]
      | w :: ws => (c :: w) :: ws

/-- `split(' ').filter(Boolean)`: the non-empty words of a string. -/
def wordsOf (s : Str) : List Str := (splitSp s).filter (fun w => w ≠ [])

/-- JavaScript `join(' ')`. -/
def joinSp : List Str → Str
  | [] => []
  | [w] => w
  | w :: ws => w ++ ' ' :: joinSp ws

/-- Duplicate every space of a string: the canonical way to produce
"the same string with repeated spaces". -/
def dupSpaces : Str → Str
  | [] => []
  | c :: rest => if c = ' ' then c :: c :: dupSpaces rest else c :: dupSpaces rest

/-- `word.charAt(0).toUpperCase() + word.slice(1)` from `titleCase`. -/
def capitalizeWord : Str → Str
  | [] => []
  | c :: rest => jsToUpperChar c :: rest

/-- `TITLE_CASE_EXCEPTIONS` from the frontend normalization module. -/
def TITLE_CASE_EXCEPTIONS : List Str := [str "do", str "da", str "dos", str "das", str "de"]

/-- The indexed `.map` callback of `titleCase`: keep a connective word as-is
when it is not the first word, otherwise capitalize it. -/
def mapWords (i : Nat) : List Str → List Str
  | [] => []
  | w :: ws =>
    (if i ≠ 0 ∧ w ∈ TITLE_CASE_EXCEPTIONS then w else capitalizeWord w) :: mapWords (i + 1) ws

/-- `titleCase` from the frontend normalization module:
`value.toLowerCase().split(' ').filter(Boolean).map(...).join(' ')`. -/
def titleCase (value : Str) : Str :=
  joinSp (mapWords 0 (wordsOf (jsToLower value)))

/-- JavaScript whitespace characters skipped by the numeric parsers
(ASCII subset of the `StrWhiteSpace` production). -/
def isJsWhitespace (c : Char) : Bool :=
  c = ' ' || c = '\t' || c = '\n' || c = '\r'

/-- ASCII decimal digit. -/
def isDigitChar (c : Char) : Bool := '0' ≤ c && c ≤ '9'

/-- ASCII hexadecimal digit. -/
def isHexDigitChar (c : Char) : Bool :=
  isDigitChar c || ('a' ≤ c && c ≤ 'f') || ('A' ≤ c && c ≤ 'F')

/-- Value of a string of decimal digits. -/
def digitsToNat (ds : Str) : Nat := ds.foldl (fun a c => a * 10 + (c.toNat - 48)) 0

/-- Value of one hexadecimal digit. -/
def hexDigitVal (c : Char) : Nat :=
  if isDigitChar c then c.toNat - 48
  else if 'a' ≤ c && c ≤ 'f' then c.toNat - 87
  else c.toNat - 55

/-- Value of a string of hexadecimal digits. -/
def hexDigitsToNat (ds : Str) : Nat := ds.foldl (fun a c => a * 16 + hexDigitVal c) 0

/-- Read an optional leading sign, returning the sign as a rational factor. -/
def readSign : Str → ℚ × Str
  | '+' :: rest => (1, rest)
  | '-' :: rest => (-1, rest)
  | s => (1, s)

/-- Read an optional exponent part (`e`/`E`, optional sign, digits); an
exponent whose digits are missing does not match and contributes 0. -/
def readExponent : Str → Int
  | c :: rest =>
    if c = 'e' ∨ c = 'E' then
      let (esign, r) : Int × Str :=
        match rest with
        | '+' :: r2 => (1, r2)
        | '-' :: r2 => (-1, r2)
        | r2 => (1, r2)
      let ds := r.takeWhile isDigitChar
      if ds = [] then 0 else esign * (digitsToNat ds : Int)
    else 0
  | [] => 0

/-- JavaScript `parseFloat`, restricted to finite results: `none` stands for
a non-finite outcome (`NaN`, or an `Infinity` literal), exactly the values
`Number.isFinite` rejects. Parses the longest valid numeric prefix and
ignores trailing garbage, as `parseFloat` does. -/
def jsParseFloat (s : Str) : Option ℚ :=
  let t0 := s.dropWhile isJsWhitespace
  let st := readSign t0
  let t := st.2
  if t.take 8 = str "Infinity" then none
  else
    let intDigits := t.takeWhile isDigitChar
    let t1 := t.dropWhile isDigitChar
    let fr : Str × Str :=
      match t1 with
      | '.' :: rest => (rest.takeWhile isDigitChar, rest.dropWhile isDigitChar)
      | _ => ([], t1)
    if intDigits = [] ∧ fr.1 = [] then none
    else
      let mantissa : ℚ :=
        (digitsToNat intDigits : ℚ) + (digitsToNat fr.1 : ℚ) / ((10 : ℚ) ^ fr.1.length)
      some (st.1 * mantissa * (10 : ℚ) ^ readExponent fr.2)

/-- JavaScript `parseInt` with no radix argument: optional whitespace and
sign, then a `0x`/`0X` hexadecimal literal or decimal digits; `none` stands
for `NaN`. -/
def jsParseInt (s : Str) : Option ℚ :=
  let t0 := s.dropWhile isJsWhitespace
  let st := readSign t0
  let t := st.2
  if t.take 2 = str "0x" ∨ t.take 2 = str "0X" then
    let ds := (t.drop 2).takeWhile isHexDigitChar
    if ds = [] then none else some (st.1 * (hexDigitsToNat ds : ℚ))
  else
    let ds := t.takeWhile isDigitChar
    if ds = [] then none else some (st.1 * (digitsToNat ds : ℚ))

/-- `toNumber` from the frontend normalization module:
`const num = parser(value); return Number.isFinite(num) ? num : 0`.
The parser argument models `parseFloat`/`parseInt` returning `none` for a
non-finite result; an absent (`undefined`) value stringifies to
`"undefined"`, which both parsers map to `NaN`, hence `0`. -/
def toNumber (parser : Str → Option ℚ) (value : Option Str) : ℚ :=
  match value.bind parser with
  | some q => q
  | none => 0

/-- The prediction form state handed to `normalizePredictionPayload`:
each field may be absent (`undefined`/`null`) or a string. -/
structure FormData where
  area : Option Str
  quartos : Option Str
  banheiros : Option Str
  tipo : Option Str
  bairro : Option Str
  cidade : Option Str

/-- JavaScript `v || d` for string `v` and string default `d`: the default is
taken when `v` is absent or the empty string (both falsy). -/
def jsOrStr (v : Option Str) (d : Str) : Str :=
  match v with
  | some s => if s = [] then d else s
  | none => d

/-- The structured listing query of the inference boundary
(`area`, `quartos`, `banheiros`, `tipo`, `bairro`, `cidade`); also the shape
of the payload `normalizePredictionPayload` produces and POSTs to
`/predict`. -/
structure PredictionQuery where
  area : ℚ
  quartos : ℚ
  banheiros : ℚ
  tipo : Str
  bairro : Str
  cidade : Str

/-- `normalizePredictionPayload` from the frontend normalization module. -/
def normalizePredictionPayload (formData : FormData) : PredictionQuery :=
  { area := toNumber jsParseFloat formData.area
    quartos := toNumber jsParseInt formData.quartos
    banheiros := toNumber jsParseInt formData.banheiros
    tipo := jsToLower (jsOrStr formData.tipo (str "apartamento"))
    bairro := titleCase (jsOrStr formData.bairro [])
    cidade := titleCase (jsOrStr formData.cidade []) }

/-- A JSON value, as produced by the host `JSON.parse`. Numbers are embedded
as rationals. -/
inductive Json where
  | null : Json
  | boolean (b : Bool) : Json
  | number (n : ℚ) : Json
  | string (s : Str) : Json
  | array (elems : List Json) : Json
  | object (fields : List (Str × Json)) : Json

/-- JavaScript truthiness of a JSON value: `null`, `false`, `0` and `""` are
falsy; every object and array (even empty) is truthy. -/
def jsTruthy : Json → Bool
  | .null => false
  | .boolean b => b
  | .number n => n != 0
  | .string s => s != []
  | .array _ => true
  | .object _ => true

/-- Truthiness of a possibly-undefined value (`undefined` is falsy). -/
def jsTruthyOpt : Option Json → Bool
  | none => false
  | some j => jsTruthy j

/-- Optional-chaining member access `payload?.key`: `undefined` when the base
is `null`/`undefined` or not an object, the field value otherwise. -/
def jsGetField (payload : Option Json) (key : Str) : Option Json :=
  match payload with
  | some (.object fields) => (fields.find? (fun p => p.1 == key)).map (fun p => p.2)
  | _ => none

/-- An HTTP response as seen by `apiFetch`: its `ok` flag and body text. -/
structure FetchResponse where
  ok : Bool
  body : Str

/-- `parseJSON` from the frontend API client: an empty body yields `null`,
and a `JSON.parse` failure is caught and yields `null`. The host `JSON.parse`
is passed in as `jsParse` (`Except` error standing for a thrown
`SyntaxError`). -/
def parseJSON (jsParse : Str → Except Unit Json) (text : Str) : Option Json :=
  if text = [] then none
  else
    match jsParse text with
    | .ok j => some j
    | .error _ => none

/-- The thrown message of `apiFetch` on a non-ok response:
`payload?.detail || payload?.message || 'Erro ao comunicar com o servidor'`. -/
def apiErrorMessage (payload : Option Json) : Json :=
  let d := jsGetField payload (str "detail")
  if jsTruthyOpt d then d.getD .null
  else
    let m := jsGetField payload (str "message")
    if jsTruthyOpt m then m.getD .null
    else .string (str "Erro ao comunicar com o servidor")

/-- `apiFetch` from the frontend API client, after the `fetch` resolved to
`response`: parse the body, throw the error message when the response is not
ok, return the payload otherwise. The thrown `Error` is embedded as the
message value it wraps. -/
def apiFetch (jsParse : Str → Except Unit Json) (response : FetchResponse) :
    Except Json (Option Json) :=
  let payload := parseJSON jsParse response.body
  if response.ok then .ok payload else .error (apiErrorMessage payload)

/-- The six text fields of the prediction form state in `usePrediction`. -/
structure FormState where
  area : Str
  quartos : Str
  banheiros : Str
  tipo : Str
  bairro : Str
  cidade : Str

/-- The empty form, as initialized by `useState` and restored by `reset`. -/
def emptyForm : FormState :=
  { area := [], quartos := [], banheiros := [], tipo := [], bairro := [], cidade := [] }

/-- The state held by the `usePrediction` hook. `prediction` holds a JSON
value, `Json.null` standing for the cleared state; `error` holds the error
message string or `null`. -/
structure PredState where
  formData : FormState
  prediction : Json
  loading : Bool
  error : Option Str

/-- The outcome of the `fetch`/`res.json()` part of `handleSubmit`: a network
failure with an error message, or a response with its ok flag and the result
of `res.json()` (which may itself fail with a parse-error message). -/
inductive FetchOutcome where
  | netError (msg : Str) : FetchOutcome
  | response (ok : Bool) (body : Except Str Json) : FetchOutcome

/-- The synchronous prelude of `handleSubmit`: `setLoading(true)`,
`setError(null)`, `setPrediction(null)` before the request is awaited. -/
def submitStart (s : PredState) : PredState :=
  { s with loading := true, error := none, prediction := .null }

/-- The rest of `handleSubmit` after the request settles: on a non-ok
response throw `Error('Erro ao obter predição')`; the `catch` stores the
error message, the success path stores the parsed data; `finally` clears
`loading`. -/
def submitFinish (outcome : FetchOutcome) (s : PredState) : PredState :=
  match outcome with
  | .netError m => { s with error := some m, loading := false }
  | .response ok body =>
    if ok then
      match body with
      | .ok data => { s with prediction := data, loading := false }
      | .error m => { s with error := some m, loading := false }
    else { s with error := some (str "Erro ao obter predição"), loading := false }

/-- `handleSubmit` from `usePrediction`, as a state transformer indexed by
the request outcome. -/
def handleSubmit (outcome : FetchOutcome) (s : PredState) : PredState :=
  submitFinish outcome (submitStart s)

/-- `reset` from `usePrediction`: restore the empty form and clear
`prediction` and `error` (it does not touch `loading`). -/
def reset (s : PredState) : PredState :=
  { s with formData := emptyForm, prediction := .null, error := none }

/-- Modelled from the spec: the business type of a listing (sale vs. rental);
prices are never comparable across this boundary. -/
inductive BusinessType where
  | venda : BusinessType
  | aluguel : BusinessType
deriving DecidableEq, Repr

/-- Modelled from the spec: a raw scraped listing record as produced by the
external collector — the numeric fields still as source text, the business
type possibly missing. The pipeline source that consumes it is not under the
repository snapshot; only the spec describes it. -/
structure RawListing where
  source : Str
  businessType : Option BusinessType
  price : Str
  area : Str
  rooms : Str
  bathrooms : Str
  propertyType : Str
  neighborhood : Str
  city : Str
  collectedAt : Nat

/-- Modelled from the spec: a listing with all fields coerced to typed
values. Invariant: every numeric field is a valid non-negative number, or
the record was rejected. -/
structure CanonicalListing where
  source : Str
  businessType : BusinessType
  price : ℚ
  area : ℚ
  rooms : Nat
  bathrooms : Nat
  propertyType : Str
  neighborhood : Str
  city : Str
deriving DecidableEq

/-- Modelled from the spec: a rejection reason of the Listing Normalizer;
rejected rows are counted and reported, never silently dropped. -/
inductive RejectReason where
  | missingBusinessType : RejectReason
  | nonNumericPrice : RejectReason
  | negativePrice : RejectReason
  | nonNumericArea : RejectReason
  | negativeArea : RejectReason
  | nonNumericRooms : RejectReason
  | nonNumericBathrooms : RejectReason
  | unknownPropertyType : RejectReason
deriving DecidableEq, Repr

/-- Modelled from the spec: strict decimal coercion used by the pipeline
normalizer — the whole field text must be an optionally signed decimal
number (the exact accepted formats are unspecified in the source material). -/
def parseDecimal (s : Str) : Option ℚ :=
  let sg := readSign s
  let intDigits := sg.2.takeWhile isDigitChar
  let t1 := sg.2.dropWhile isDigitChar
  let fr : Str × Str :=
    match t1 with
    | '.' :: rest => (rest.takeWhile isDigitChar, rest.dropWhile isDigitChar)
    | _ => ([], t1)
  if intDigits = [] ∧ fr.1 = [] then none
  else if fr.2 ≠ [] then none
  else some (sg.1 * ((digitsToNat intDigits : ℚ) + (digitsToNat fr.1 : ℚ) / ((10 : ℚ) ^ fr.1.length)))

/-- Modelled from the spec: strict coercion to a non-negative integer count
(rooms, bathrooms). -/
def parseCount (s : Str) : Option Nat :=
  match parseDecimal s with
  | none => none
  | some q => if q.den = 1 ∧ 0 ≤ q then some q.num.toNat else none

/-- Modelled from the spec: the fixed set of recognized property types
(representative contents; the spec only states the set is fixed and an
unrecognized type is rejected). -/
def KNOWN_PROPERTY_TYPES : List Str :=
  [str "apartamento", str "casa", str "terreno", str "comercial", str "kitnet"]

/-- Modelled from the spec: the Listing Normalizer (§4.1). Coercion
failures, missing mandatory fields and unrecognized property types yield a
rejection with a reason; negative numbers are rejected, never coerced to
zero; location strings are normalized with the same case-insensitive,
whitespace-collapsing title-casing as the frontend. -/
def normalizeRaw (r : RawListing) : Except RejectReason CanonicalListing :=
  match r.businessType with
  | none => .error .missingBusinessType
  | some bt =>
    match parseDecimal r.price with
    | none => .error .nonNumericPrice
    | some price =>
      if price < 0 then .error .negativePrice
      else
        match parseDecimal r.area with
        | none => .error .nonNumericArea
        | some area =>
          if area < 0 then .error .negativeArea
          else
            match parseCount r.rooms with
            | none => .error .nonNumericRooms
            | some rooms =>
              match parseCount r.bathrooms with
              | none => .error .nonNumericBathrooms
              | some bathrooms =>
                if jsToLower r.propertyType ∉ KNOWN_PROPERTY_TYPES then
                  .error .unknownPropertyType
                else
                  .ok { source := r.source, businessType := bt, price := price,
                        area := area, rooms := rooms, bathrooms := bathrooms,
                        propertyType := jsToLower r.propertyType,
                        neighborhood := titleCase r.neighborhood,
                        city := titleCase r.city }

/-- Modelled from the spec: run the normalizer over a batch, keeping the
accepted rows and counting rejections by reason. -/
def normalizeBatch (rows : List RawListing) : List CanonicalListing × List RejectReason :=
  (rows.filterMap (fun r => (normalizeRaw r).toOption),
   rows.filterMap (fun r =>
     match normalizeRaw r with
     | .error e => some e
     | .ok _ => none))

/-- Modelled from the spec: the coarse geospatial bucket of the Enrichment
Joiner — unmapped locations keep the raw text, marked unresolved. -/
inductive GeoBucket where
  | bucket (name : Str) : GeoBucket
  | unresolved (raw : Str) : GeoBucket
deriving DecidableEq, Repr

/-- Modelled from the spec: a CanonicalListing plus derived geospatial
features and the left-joined economic index value; `none` is the explicit
"unenriched" marker, never a default value. -/
structure EnrichedListing where
  listing : CanonicalListing
  geo : GeoBucket
  econIndex : Option ℚ
deriving DecidableEq

/-- Modelled from the spec: the Enrichment Joiner (§4.2) for one row: a
lookup-table geospatial derivation and a left join against the economic
index keyed by (city, period). -/
def enrichOne (geoTable : List (Str × Str)) (econIndex : List ((Str × Nat) × ℚ))
    (period : Nat) (c : CanonicalListing) : EnrichedListing :=
  { listing := c
    geo :=
      match (geoTable.find? (fun p => p.1 == c.neighborhood)).map (fun p => p.2) with
      | some b => .bucket b
      | none => .unresolved c.neighborhood
    econIndex :=
      ((econIndex.find? (fun p => p.1.1 == c.city && p.1.2 == period)).map (fun p => p.2)) }

/-- Modelled from the spec: the Enrichment Joiner over a batch. -/
def enrichBatch (geoTable : List (Str × Str)) (econIndex : List ((Str × Nat) × ℚ))
    (period : Nat) (rows : List CanonicalListing) : List EnrichedListing :=
  rows.map (enrichOne geoTable econIndex period)

/-- Insertion into a sorted list of rationals. -/
def insertSorted (q : ℚ) : List ℚ → List ℚ
  | [] => [q]
  | x :: xs => if q ≤ x then q :: x :: xs else x :: insertSorted q xs

/-- Deterministic insertion sort on rationals. -/
def sortQ (l : List ℚ) : List ℚ := l.foldr insertSorted []

/-- Modelled from the spec: a price-per-area acceptance band, derived from
the interquartile range of the ratios of one business type (the exact
quartile convention is unspecified in the source material; the spec treats
the multiple as configuration). -/
def iqrBand (k : ℚ) (ratios : List ℚ) : ℚ × ℚ :=
  let sorted := sortQ ratios
  let n := sorted.length
  let q1 := sorted.getD (n / 4) 0
  let q3 := sorted.getD (3 * n / 4) 0
  (q1 - k * (q3 - q1), q3 + k * (q3 - q1))

/-- Modelled from the spec: a row is structurally valid for the Quality
Filter when its placeholder-sensitive numeric fields are strictly positive —
zeros that survived normalization are treated as invalid, not as legitimate
values. -/
def validRow (e : EnrichedListing) : Prop :=
  0 < e.listing.price ∧ 0 < e.listing.area

instance (e : EnrichedListing) : Decidable (validRow e) := by unfold validRow; infer_instance

/-- Price-per-area ratio of a row. -/
def rowRatio (e : EnrichedListing) : ℚ := e.listing.price / e.listing.area

/-- Modelled from the spec: the output of the Quality Filter — the kept rows
plus dropped-row counts by reason. -/
structure FilterOutput where
  kept : List EnrichedListing
  droppedInvalid : Nat
  droppedOutlier : Nat

/-- Modelled from the spec: the Quality Filter (§4.3). Rows with placeholder
zeros are dropped as invalid; the outlier band is computed per business type
(sale vs. rental) from the interquartile range of price-per-area ratios,
scaled by the configured multiple `k`. -/
def qualityFilter (k : ℚ) (rows : List EnrichedListing) : FilterOutput :=
  let valid := rows.filter (fun e => validRow e)
  let saleBand := iqrBand k ((valid.filter
    (fun e => e.listing.businessType == BusinessType.venda)).map rowRatio)
  let rentBand := iqrBand k ((valid.filter
    (fun e => e.listing.businessType == BusinessType.aluguel)).map rowRatio)
  let inBand := fun (e : EnrichedListing) =>
    let band := if e.listing.businessType == BusinessType.venda then saleBand else rentBand
    band.1 ≤ rowRatio e ∧ rowRatio e ≤ band.2
  let kept := valid.filter (fun e => inBand e)
  { kept := kept
    droppedInvalid := rows.length - valid.length
    droppedOutlier := valid.length - kept.length }

/-- Modelled from the spec: the fixed configuration of one pipeline run —
the geospatial lookup table, the economic index and its period, and the
outlier-band multiple. -/
structure PipelineConfig where
  geoTable : List (Str × Str)
  econIndex : List ((Str × Nat) × ℚ)
  period : Nat
  iqrMultiple : ℚ

/-- Modelled from the spec: one batch pass of Normalizer + Enrichment Joiner
+ Quality Filter over raw listings. -/
def runPipeline (cfg : PipelineConfig) (raws : List RawListing) : FilterOutput :=
  qualityFilter cfg.iqrMultiple
    (enrichBatch cfg.geoTable cfg.econIndex cfg.period (normalizeBatch raws).1)

/-- Modelled from the spec: the key naming a Dataset produced by the
Segmenter (§4.4). -/
inductive SegmentKey where
  | all : SegmentKey
  | source (s : Str) : SegmentKey
  | business (bt : BusinessType) : SegmentKey
  | combo (s : Str) (bt : BusinessType) : SegmentKey
  | primaryTraining : SegmentKey
deriving DecidableEq, Repr

/-- The distinct sources appearing in a filtered dataset. -/
def sourcesOf (rows : List EnrichedListing) : List Str :=
  (rows.map (fun e => e.listing.source)).dedup

/-- Rows of one business type. -/
def businessSegment (bt : BusinessType) (rows : List EnrichedListing) : List EnrichedListing :=
  rows.filter (fun e => e.listing.businessType == bt)

/-- Rows of one source. -/
def sourceSegment (s : Str) (rows : List EnrichedListing) : List EnrichedListing :=
  rows.filter (fun e => e.listing.source == s)

/-- Rows of one source × business type combination. -/
def comboSegment (s : Str) (bt : BusinessType) (rows : List EnrichedListing) :
    List EnrichedListing :=
  rows.filter (fun e => e.listing.source == s && e.listing.businessType == bt)

/-- Modelled from the spec: the primary training Dataset — sale rows only;
when the named preferred source has sale rows, that source exclusively. -/
def primaryTrainingSegment (preferredSource : Option Str) (rows : List EnrichedListing) :
    List EnrichedListing :=
  let sale := businessSegment .venda rows
  match preferredSource with
  | none => sale
  | some s => if sale.any (fun e => e.listing.source == s)
              then sale.filter (fun e => e.listing.source == s)
              else sale

/-- Modelled from the spec: the Segmenter (§4.4) — a mapping from segment
key to Dataset: all-sources-combined, per-source, the business-type split,
every nonempty source × business-type combination, and the primary training
Dataset. -/
def segmentDatasets (preferredSource : Option Str) (rows : List EnrichedListing) :
    List (SegmentKey × List EnrichedListing) :=
  (SegmentKey.all, rows)
    :: (sourcesOf rows).map (fun s => (SegmentKey.source s, sourceSegment s rows))
    ++ [(SegmentKey.business .venda, businessSegment .venda rows),
        (SegmentKey.business .aluguel, businessSegment .aluguel rows)]
    ++ ((sourcesOf rows).flatMap (fun s =>
          ([BusinessType.venda, BusinessType.aluguel].filter
            (fun bt => !(comboSegment s bt rows).isEmpty)).map
            (fun bt => (SegmentKey.combo s bt, comboSegment s bt rows))))
    ++ [(SegmentKey.primaryTraining, primaryTrainingSegment preferredSource rows)]

/-- A segment key naming a sale-price training Dataset: the sale half of the
business split, a sale combo, or the primary training Dataset. -/
def isSaleTrainingKey : SegmentKey → Prop
  | .business .venda => True
  | .combo _ .venda => True
  | .primaryTraining => True
  | _ => False

/-- Modelled from the spec: a PreprocessingArtifact (§4.5) — the frozen
category vocabularies of the one-hot encoding, fit once on a training
Dataset. Numeric columns pass through unscaled (the spec allows either; the
frozen-parameter discipline is represented by the frozen vocabularies). -/
structure PreprocessingArtifact where
  tipoVocab : List Str
  bairroVocab : List Str
  cidadeVocab : List Str
deriving DecidableEq

/-- Modelled from the spec: fit the artifact on a training Dataset, freezing
the set of known categories of each categorical column. -/
def fitArtifact (rows : List CanonicalListing) : PreprocessingArtifact :=
  { tipoVocab := (rows.map (fun r => r.propertyType)).dedup
    bairroVocab := (rows.map (fun r => r.neighborhood)).dedup
    cidadeVocab := (rows.map (fun r => r.city)).dedup }

/-- Modelled from the spec: one-hot encoding of a categorical value against
a frozen vocabulary. A value outside the vocabulary yields the all-zero row
(the explicit unknown-category representation); the encoding is total and
never fails. -/
def oneHot (vocab : List Str) (v : Str) : List Nat :=
  vocab.map (fun c => if c = v then 1 else 0)

/-- Modelled from the spec: decode a one-hot row back to the category it
marks, `none` when no known category is marked. -/
def decodeOneHot (vocab : List Str) (row : List Nat) : Option Str :=
  ((vocab.zip row).find? (fun p => p.2 == 1)).map (fun p => p.1)

/-- Modelled from the spec: the encoded feature row of one listing query —
the pass-through numeric columns and one one-hot block per categorical
column. -/
structure EncodedRow where
  numerics : List ℚ
  tipoRow : List Nat
  bairroRow : List Nat
  cidadeRow : List Nat
deriving DecidableEq

/-- Modelled from the spec: encode a listing query with a frozen artifact
(the transformation reapplied identically at inference time). -/
def encodeRow (art : PreprocessingArtifact) (q : PredictionQuery) : EncodedRow :=
  { numerics := [q.area, q.quartos, q.banheiros]
    tipoRow := oneHot art.tipoVocab q.tipo
    bairroRow := oneHot art.bairroVocab q.bairro
    cidadeRow := oneHot art.cidadeVocab q.cidade }

/-- Modelled from the spec: decode the categorical blocks of an encoded row
back to their category values. -/
def decodeRowCats (art : PreprocessingArtifact) (e : EncodedRow) :
    Option Str × Option Str × Option Str :=
  (decodeOneHot art.tipoVocab e.tipoRow,
   decodeOneHot art.bairroVocab e.bairroRow,
   decodeOneHot art.cidadeVocab e.cidadeRow)

/-- Modelled from the spec: one trained candidate regressor with its
held-out evaluation metrics and its complexity hyperparameters. -/
structure Candidate where
  name : Str
  nEstimators : Nat
  maxDepth : Nat
  mae : ℚ
  rmse : ℚ
  r2 : ℚ
deriving DecidableEq

/-- Modelled from the spec: the selection key of the Model Trainer &
Selector (§4.6) — lowest held-out MAE, ties broken by lowest RMSE, then by
fewest estimators, then by shallowest depth. -/
def selectionKey (c : Candidate) : ℚ ×ₗ (ℚ ×ₗ (ℕ ×ₗ ℕ)) :=
  toLex (c.mae, toLex (c.rmse, toLex (c.nEstimators, c.maxDepth)))

/-- Fold of the selection policy over the remaining candidates. -/
def selectBetter (acc : Candidate) : List Candidate → Candidate
  | [] => acc
  | x :: xs => selectBetter (if selectionKey x < selectionKey acc then x else acc) xs

/-- Modelled from the spec: select the definitive candidate from a training
run's candidate set. -/
def selectDefinitive : List Candidate → Option Candidate
  | [] => none
  | c :: rest => some (selectBetter c rest)

/-- Modelled from the spec: the exported definitive pair — the selected
ModelArtifact bundled with the PreprocessingArtifact that produced its input
features. -/
structure ExportedArtifact where
  model : Candidate
  preprocessing : PreprocessingArtifact
deriving DecidableEq

/-- Modelled from the spec: export the definitive model of a run, bundled
with the PreprocessingArtifact from §4.5. -/
def exportDefinitive (candidates : List Candidate) (art : PreprocessingArtifact) :
    Option ExportedArtifact :=
  (selectDefinitive candidates).map (fun best => { model := best, preprocessing := art })

/-- The categorical confidence label of a prediction response. -/
inductive Confianca where
  | alta : Confianca
  | media : Confianca
  | baixa : Confianca
deriving DecidableEq, Repr

/-- Modelled from the spec: a served ModelArtifact — the frozen regressor
(as its scoring function on the encoded features) together with the frozen
residual-error statistics and confidence thresholds. -/
structure ModelArtifact where
  score : EncodedRow → ℚ
  expectedRelError : ℚ
  altaThreshold : ℚ
  mediaThreshold : ℚ

/-- Modelled from the spec: a validation failure of the Inference Adapter
(§4.8). -/
inductive ValidationError where
  | areaNotPositive : ValidationError
  | invalidQuartos : ValidationError
  | invalidBanheiros : ValidationError
  | missingTipo : ValidationError
  | missingBairro : ValidationError
  | missingCidade : ValidationError
deriving DecidableEq, Repr

/-- Modelled from the spec: the error taxonomy at the inference boundary — a
structured bad request is distinguished from a missing/mismatched artifact
("model unavailable"). -/
inductive InferenceError where
  | badRequest (e : ValidationError) : InferenceError
  | modelUnavailable : InferenceError
deriving DecidableEq, Repr

/-- Modelled from the spec: the prediction response — a numeric point
estimate and a categorical confidence label. -/
structure PredictionResponse where
  preco_estimado : ℚ
  confianca : Confianca
deriving DecidableEq

/-- Modelled from the spec: request validation of the Inference Adapter —
`area > 0`, counts non-negative and integral, property type present,
neighborhood and city non-empty after normalization (the same normalization
rules as §4.1). -/
def validateQuery (q : PredictionQuery) : Except ValidationError Unit :=
  if ¬ (0 < q.area) then .error .areaNotPositive
  else if ¬ (0 ≤ q.quartos ∧ q.quartos.den = 1) then .error .invalidQuartos
  else if ¬ (0 ≤ q.banheiros ∧ q.banheiros.den = 1) then .error .invalidBanheiros
  else if q.tipo = [] then .error .missingTipo
  else if titleCase q.bairro = [] then .error .missingBairro
  else if titleCase q.cidade = [] then .error .missingCidade
  else .ok ()

/-- Modelled from the spec: the confidence label derived from the frozen
residual-error mapping of the exported ModelArtifact. -/
def confidenceLabel (m : ModelArtifact) : Confianca :=
  if m.expectedRelError ≤ m.altaThreshold then .alta
  else if m.expectedRelError ≤ m.mediaThreshold then .media
  else .baixa

/-- Modelled from the spec: the Inference Adapter (§4.8):
`received → validated → transformed → scored → responded`, or
`received → validated → rejected`. -/
def infer (art : PreprocessingArtifact) (m : ModelArtifact) (q : PredictionQuery) :
    Except InferenceError PredictionResponse :=
  match validateQuery q with
  | .error e => .error (.badRequest e)
  | .ok _ =>
    .ok { preco_estimado := m.score (encodeRow art q), confianca := confidenceLabel m }

/-- A one-hot row of a known category decodes back to that category. -/
theorem decodeOneHot_encode (vocab : List Str) (v : Str) (hv : v ∈ vocab) :
    decodeOneHot vocab (oneHot vocab v) = some v := by
  induction vocab with
  | nil => cases hv
  | cons c rest ih =>
    by_cases hc : c = v
    · subst hc
      simp [decodeOneHot, oneHot, List.find?]
    · have hv' : v ∈ rest := by
        rcases List.mem_cons.mp hv with h | h
        · exact absurd h.symm hc
        · exact h
      have := ih hv'
      simp only [decodeOneHot, oneHot] at this ⊢
      simpa [List.find?, hc] using this

/-- A category outside the vocabulary encodes to the all-zero row. -/
theorem oneHot_unknown (vocab : List Str) (v : Str) (hv : v ∉ vocab) :
    oneHot vocab v = List.replicate vocab.length 0 := by
  induction vocab with
  | nil => simp [oneHot]
  | cons c rest ih =>
    have hc : c ≠ v := fun h => hv (h ▸ List.mem_cons_self c rest)
    have hr : v ∉ rest := fun h => hv (List.mem_cons_of_mem c h)
    have := ih hr
    simp only [oneHot] at this
    simp [oneHot, List.replicate_succ, hc, this]

/-- C5: encoding a feature row with a PreprocessingArtifact and decoding its
known categories back yields the original categorical values; a category
outside the frozen vocabulary always encodes to the all-zero unknown
representation (the encoding is a total function, so it never raises). -/
theorem C5_unknown_category_roundtrip (art : PreprocessingArtifact) (q : PredictionQuery) :
    (q.tipo ∈ art.tipoVocab →
      (decodeRowCats art (encodeRow art q)).1 = some q.tipo) ∧
    (q.bairro ∈ art.bairroVocab →
      (decodeRowCats art (encodeRow art q)).2.1 = some q.bairro) ∧
    (q.cidade ∈ art.cidadeVocab →
      (decodeRowCats art (encodeRow art q)).2.2 = some q.cidade) ∧
    (q.tipo ∉ art.tipoVocab →
      (encodeRow art q).tipoRow = List.replicate art.tipoVocab.length 0) ∧
    (q.bairro ∉ art.bairroVocab →
      (encodeRow art q).bairroRow = List.replicate art.bairroVocab.length 0) ∧
    (q.cidade ∉ art.cidadeVocab →
      (encodeRow art q).cidadeRow = List.replicate art.cidadeVocab.length 0) :=
  ⟨fun h => by simp [decodeRowCats, encodeRow, decodeOneHot_encode _ _ h],
   fun h => by simp [decodeRowCats, encodeRow, decodeOneHot_encode _ _ h],
   fun h => by simp [decodeRowCats, encodeRow, decodeOneHot_encode _ _ h],
   fun h => by simp [encodeRow, oneHot_unknown _ _ h],
   fun h => by simp [encodeRow, oneHot_unknown _ _ h],
   fun h => by simp [encodeRow, oneHot_unknown _ _ h]⟩

/-- Witness for C5 at a concrete artifact and queries: a known neighborhood
round-trips, an unseen neighborhood encodes to the all-zero row. -/
theorem C5_unknown_category_roundtrip_witness :
    (decodeRowCats ⟨[str "apartamento"], [str "Jardins", str "Centro"], [str "Sao Paulo"]⟩
      (encodeRow ⟨[str "apartamento"], [str "Jardins", str "Centro"], [str "Sao Paulo"]⟩
        ⟨85, 3, 2, str "apartamento", str "Jardins", str "Sao Paulo"⟩)).2.1 =
      some (str "Jardins") ∧
    (encodeRow ⟨[str "apartamento"], [str "Jardins", str "Centro"], [str "Sao Paulo"]⟩
      ⟨85, 3, 2, str "apartamento", str "Vila Nova", str "Sao Paulo"⟩).bairroRow =
      List.replicate ([str "Jardins", str "Centro"] : List Str).length 0 :=
  ⟨(C5_unknown_category_roundtrip _ _).2.1 (by decide),
   (C5_unknown_category_roundtrip _ _).2.2.2.2.1 (by decide)⟩

/-- C8: an empty or absent `tipo` is silently defaulted to the literal
`apartamento`; a present non-empty `tipo` is carried lowercased. -/
theorem C8_tipo_default (fd : FormData) :
    ((fd.tipo = none ∨ fd.tipo = some []) →
      (normalizePredictionPayload fd).tipo = str "apartamento") ∧
    (∀ s : Str, fd.tipo = some s → s ≠ [] →
      (normalizePredictionPayload fd).tipo = jsToLower s) := by
  constructor
  · intro h
    rcases h with h | h <;> simp [normalizePredictionPayload, jsOrStr, h] <;> decide
  · intro s hs hne
    simp [normalizePredictionPayload, jsOrStr, hs, hne]

/-- Witness for C8: a form without `tipo` yields `apartamento`; a form with
`tipo = "Casa"` yields `casa`. -/
theorem C8_tipo_default_witness :
    (normalizePredictionPayload
      ⟨none, none, none, none, none, none⟩).tipo = str "apartamento" ∧
    (normalizePredictionPayload
      ⟨none, none, none, some (str "Casa"), none, none⟩).tipo = str "casa" := by
  constructor
  · exact (C8_tipo_default _).1 (Or.inl rfl)
  · have h := (C8_tipo_default ⟨none, none, none, some (str "Casa"), none, none⟩).2
      (str "Casa") rfl (by decide)
    rw [h]; decide

/-- C10: `handleSubmit` first clears `prediction` and `error`; once it
settles, `loading` is `false` and at most one of `prediction`/`error` is
set, so a stale prediction is never shown with a new error; `reset` restores
the empty form with `prediction` and `error` cleared. -/
theorem C10_hook_state_invariant (s : PredState) (outcome : FetchOutcome) :
    (submitStart s).prediction = Json.null ∧
    (submitStart s).error = none ∧
    (handleSubmit outcome s).loading = false ∧
    ((handleSubmit outcome s).prediction = Json.null ∨
      (handleSubmit outcome s).error = none) ∧
    (reset s).formData = emptyForm ∧
    (reset s).prediction = Json.null ∧
    (reset s).error = none := by
  refine ⟨rfl, rfl, ?_, ?_, rfl, rfl, rfl⟩ <;>
    rcases outcome with m | ⟨ok, body⟩ <;>
      [skip; cases ok; skip; cases ok] <;>
      [skip; rcases body with m | data; rcases body with m | data;
       skip; rcases body with m | data; rcases body with m | data] <;>
    simp [handleSubmit, submitFinish, submitStart]

/-- C7: the Quality Filter, and the composed Normalizer + Enrichment Joiner
+ Quality Filter pass, are deterministic — two runs on equal inputs with
equal threshold configuration produce identical output (the embedded
pipeline is a pure function of its input and configuration). -/
theorem C7_pipeline_deterministic (cfg cfg2 : PipelineConfig)
    (raws raws2 : List RawListing) (ds ds2 : List EnrichedListing)
    (hc : cfg = cfg2) (hr : raws = raws2) (hd : ds = ds2) :
    runPipeline cfg raws = runPipeline cfg2 raws2 ∧
    qualityFilter cfg.iqrMultiple ds = qualityFilter cfg2.iqrMultiple ds2 := by
  subst hc; subst hr; subst hd; exact ⟨rfl, rfl⟩

/-- Witness for C7 at a concrete configuration and input. -/
theorem C7_pipeline_deterministic_witness :
    runPipeline ⟨[], [], 0, 3/2⟩ [] = runPipeline ⟨[], [], 0, 3/2⟩ [] ∧
    qualityFilter ((3 : ℚ)/2) [] = qualityFilter ((3 : ℚ)/2) [] :=
  C7_pipeline_deterministic ⟨[], [], 0, 3/2⟩ ⟨[], [], 0, 3/2⟩ [] [] [] [] rfl rfl rfl

/-- C3: at the inference boundary every request yields either a response
with a numeric estimate and a confidence drawn from alta/media/baixa, or a
structured validation failure; a query violating `area > 0` (such as
`area = -1`) is rejected with a validation error, never scored. -/
theorem C3_inference_contract (art : PreprocessingArtifact) (m : ModelArtifact)
    (q : PredictionQuery) :
    ((∃ r : PredictionResponse, infer art m q = .ok r ∧
        (r.confianca = .alta ∨ r.confianca = .media ∨ r.confianca = .baixa)) ∨
      (∃ e : ValidationError, infer art m q = .error (.badRequest e))) ∧
    (q.area ≤ 0 → infer art m q = .error (.badRequest .areaNotPositive)) := by
  constructor
  · unfold infer
    cases hv : validateQuery q with
    | error e => exact Or.inr ⟨e, rfl⟩
    | ok u =>
      refine Or.inl ⟨_, rfl, ?_⟩
      cases h : confidenceLabel m <;> simp
  · intro h
    have hna : ¬ (0 < q.area) := not_lt.mpr h
    simp [infer, validateQuery, hna]

/-- Witness for C3: the spec's `area = -1` scenario is rejected as a bad
request. -/
theorem C3_inference_contract_witness :
    infer ⟨[], [], []⟩
      { score := fun _ => 1000, expectedRelError := 0,
        altaThreshold := 1/10, mediaThreshold := 1/4 }
      ⟨-1, 3, 2, str "apartamento", str "Jardins", str "Sao Paulo"⟩ =
      .error (.badRequest .areaNotPositive) :=
  (C3_inference_contract _ _ _).2 (by norm_num)

/-- C1 counterexample: the frontend coercion function does map a non-numeric
string to 0 — `toNumber('abc')` with the `parseFloat` parser yields the
placeholder zero instead of a rejection. -/
theorem C1_counterexample :
    jsParseFloat (str "abc") = none ∧
    toNumber jsParseFloat (some (str "abc")) = 0 :=
  ⟨by decide, by decide⟩

/-- C1 (amended): the pipeline normalizer rejects non-numeric fields with a
reason and canonical rows carry non-negative numerics; the quality filter
treats placeholder zeros as invalid; the frontend coercion, however, maps a
non-numeric string to the placeholder 0, which is then rejected downstream
by the `area > 0` inference validation instead of being scored. -/
theorem C1_placeholder_zero_rejected (fd : FormData) (m : ModelArtifact)
    (art : PreprocessingArtifact) (r : RawListing) (c : CanonicalListing)
    (k : ℚ) (ds : List EnrichedListing) (e : EnrichedListing) :
    (fd.area.bind jsParseFloat = none →
      (normalizePredictionPayload fd).area = 0 ∧
      infer art m (normalizePredictionPayload fd) =
        .error (.badRequest .areaNotPositive)) ∧
    (normalizeRaw r = .ok c → 0 ≤ c.price ∧ 0 ≤ c.area) ∧
    (parseDecimal r.price = none →
      normalizeRaw r = .error .missingBusinessType ∨
      normalizeRaw r = .error .nonNumericPrice) ∧
    (e ∈ (qualityFilter k ds).kept → 0 < e.listing.price ∧ 0 < e.listing.area) := by
  refine ⟨fun h => ?_, fun h => ?_, fun h => ?_, fun h => ?_⟩
  · have ha : (normalizePredictionPayload fd).area = 0 := by
      simp [normalizePredictionPayload, toNumber, h]
    exact ⟨ha, by simp [infer, validateQuery, ha]⟩
  · unfold normalizeRaw at h
    repeat' split at h
    all_goals cases h
    all_goals simp_all [not_lt]
  · cases hbt : r.businessType
    · exact Or.inl (by simp [normalizeRaw, hbt])
    · exact Or.inr (by simp [normalizeRaw, hbt, h])
  · unfold qualityFilter at h
    simp only at h
    have h1 := List.mem_of_mem_filter h
    have h2 := List.of_mem_filter h1
    exact of_decide_eq_true h2

/-- Witness for C1: a form with `area = "abc"` produces the placeholder 0
and is rejected by the inference validation; a fully numeric raw listing
normalizes to non-negative numerics; a raw listing with price `"x"` is
rejected with a reason; a concrete kept row of the quality filter has
strictly positive price and area. -/
theorem C1_placeholder_zero_rejected_witness :
    ((normalizePredictionPayload ⟨some (str "abc"), none, none, none, none, none⟩).area = 0 ∧
      infer ⟨[], [], []⟩
        { score := fun _ => 0, expectedRelError := 0, altaThreshold := 0, mediaThreshold := 0 }
        (normalizePredictionPayload ⟨some (str "abc"), none, none, none, none, none⟩) =
        .error (.badRequest .areaNotPositive)) ∧
    ((0 : ℚ) ≤ (100 : ℚ) ∧ (0 : ℚ) ≤ (50 : ℚ)) ∧
    (normalizeRaw ⟨str "olx", some .venda, str "x", str "50", str "2", str "1",
        str "Casa", str "centro", str "teresina", 0⟩ = .error .missingBusinessType ∨
      normalizeRaw ⟨str "olx", some .venda, str "x", str "50", str "2", str "1",
        str "Casa", str "centro", str "teresina", 0⟩ = .error .nonNumericPrice) ∧
    ((0 : ℚ) <
        (⟨⟨str "olx", .venda, 100, 50, 2, 1, str "casa", str "Centro", str "Teresina"⟩,
          .unresolved (str "Centro"), none⟩ : EnrichedListing).listing.price ∧
      (0 : ℚ) <
        (⟨⟨str "olx", .venda, 100, 50, 2, 1, str "casa", str "Centro", str "Teresina"⟩,
          .unresolved (str "Centro"), none⟩ : EnrichedListing).listing.area) := by
  have hok : normalizeRaw ⟨str "olx", some .venda, str "100", str "50", str "2", str "1",
      str "Casa", str "centro", str "teresina", 0⟩ =
      .ok ⟨str "olx", .venda, 100, 50, 2, 1, str "casa", str "Centro", str "Teresina"⟩ := by
    simp [normalizeRaw, parseDecimal, parseCount, readSign, digitsToNat, isDigitChar,
      KNOWN_PROPERTY_TYPES, jsToLower, jsToLowerChar, titleCase, wordsOf, splitSp, mapWords,
      capitalizeWord, jsToUpperChar, joinSp, str, UPPER, LOWER]
    norm_num
  have hmem : (⟨⟨str "olx", .venda, 100, 50, 2, 1, str "casa", str "Centro", str "Teresina"⟩,
      .unresolved (str "Centro"), none⟩ : EnrichedListing) ∈
      (qualityFilter 1
        [⟨⟨str "olx", .venda, 100, 50, 2, 1, str "casa", str "Centro", str "Teresina"⟩,
          .unresolved (str "Centro"), none⟩]).kept := by
    have hq : (qualityFilter 1
        [(⟨⟨str "olx", .venda, 100, 50, 2, 1, str "casa", str "Centro", str "Teresina"⟩,
          .unresolved (str "Centro"), none⟩ : EnrichedListing)]).kept =
        [⟨⟨str "olx", .venda, 100, 50, 2, 1, str "casa", str "Centro", str "Teresina"⟩,
          .unresolved (str "Centro"), none⟩] := by
      simp [qualityFilter, validRow, iqrBand, sortQ, insertSorted, rowRatio]
    rw [hq]
    exact List.mem_singleton.mpr rfl
  refine ⟨?_, ?_, ?_, ?_⟩
  · exact (C1_placeholder_zero_rejected ⟨some (str "abc"), none, none, none, none, none⟩
      { score := fun _ => 0, expectedRelError := 0, altaThreshold := 0, mediaThreshold := 0 }
      ⟨[], [], []⟩
      ⟨str "olx", some .venda, str "x", str "50", str "2", str "1",
        str "Casa", str "centro", str "teresina", 0⟩
      ⟨str "olx", .venda, 100, 50, 2, 1, str "casa", str "Centro", str "Teresina"⟩ 1 [] 
      ⟨⟨str "olx", .venda, 100, 50, 2, 1, str "casa", str "Centro", str "Teresina"⟩,
        .unresolved (str "Centro"), none⟩).1 (by decide)
  · exact (C1_placeholder_zero_rejected ⟨none, none, none, none, none, none⟩
      { score := fun _ => 0, expectedRelError := 0, altaThreshold := 0, mediaThreshold := 0 }
      ⟨[], [], []⟩
      ⟨str "olx", some .venda, str "100", str "50", str "2", str "1",
        str "Casa", str "centro", str "teresina", 0⟩
      ⟨str "olx", .venda, 100, 50, 2, 1, str "casa", str "Centro", str "Teresina"⟩ 1 []
      ⟨⟨str "olx", .venda, 100, 50, 2, 1, str "casa", str "Centro", str "Teresina"⟩,
        .unresolved (str "Centro"), none⟩).2.1 hok
  · exact (C1_placeholder_zero_rejected ⟨none, none, none, none, none, none⟩
      { score := fun _ => 0, expectedRelError := 0, altaThreshold := 0, mediaThreshold := 0 }
      ⟨[], [], []⟩
      ⟨str "olx", some .venda, str "x", str "50", str "2", str "1",
        str "Casa", str "centro", str "teresina", 0⟩
      ⟨str "olx", .venda, 100, 50, 2, 1, str "casa", str "Centro", str "Teresina"⟩ 1 []
      ⟨⟨str "olx", .venda, 100, 50, 2, 1, str "casa", str "Centro", str "Teresina"⟩,
        .unresolved (str "Centro"), none⟩).2.2.1 (by decide)
  · exact (C1_placeholder_zero_rejected ⟨none, none, none, none, none, none⟩
      { score := fun _ => 0, expectedRelError := 0, altaThreshold := 0, mediaThreshold := 0 }
      ⟨[], [], []⟩
      ⟨str "olx", some .venda, str "x", str "50", str "2", str "1",
        str "Casa", str "centro", str "teresina", 0⟩
      ⟨str "olx", .venda, 100, 50, 2, 1, str "casa", str "Centro", str "Teresina"⟩ 1
      [⟨⟨str "olx", .venda, 100, 50, 2, 1, str "casa", str "Centro", str "Teresina"⟩,
        .unresolved (str "Centro"), none⟩]
      ⟨⟨str "olx", .venda, 100, 50, 2, 1, str "casa", str "Centro", str "Teresina"⟩,
        .unresolved (str "Centro"), none⟩).2.2.2 hmem

/-- A concrete host `JSON.parse` on the single body text used below: the
JSON text `\x7b"detail":""\x7d` parses to an object whose `detail` field is
the empty string. -/
def jsParseDetailEmpty : Str → Except Unit Json := fun t =>
  if t = str "\x7b\"detail\":\"\"\x7d" then
    .ok (.object [(str "detail", .string [])])
  else .error ()

/-- C9 counterexample: for a non-ok response whose body has a `detail`
field that is present but empty, `apiFetch` throws the fixed fallback
message, not the present `detail` value — presence is not what the code
tests, truthiness is. -/
theorem C9_counterexample :
    apiFetch jsParseDetailEmpty
      { ok := false, body := str "\x7b\"detail\":\"\"\x7d" } =
      .error (.string (str "Erro ao comunicar com o servidor")) ∧
    jsGetField (parseJSON jsParseDetailEmpty (str "\x7b\"detail\":\"\"\x7d"))
      (str "detail") = some (.string []) ∧
    ([] : Str) ≠ str "Erro ao comunicar com o servidor" :=
  ⟨rfl, rfl, by decide⟩

/-- C9 (amended): `apiFetch` returns the parsed payload exactly for ok
responses; on a non-ok response it throws the body's `detail` field if
present and truthy, else its `message` field if present and truthy, else
the fixed fallback message; an empty body, or one the host `JSON.parse`
rejects, is parsed to `null` rather than raising. -/
theorem C9_apiFetch_error_contract (jsParse : Str → Except Unit Json)
    (r : FetchResponse) :
    (r.ok = true → apiFetch jsParse r = .ok (parseJSON jsParse r.body)) ∧
    (r.ok = false →
      (∀ j, jsGetField (parseJSON jsParse r.body) (str "detail") = some j →
        jsTruthy j = true → apiFetch jsParse r = .error j) ∧
      (jsTruthyOpt (jsGetField (parseJSON jsParse r.body) (str "detail")) = false →
        ∀ j, jsGetField (parseJSON jsParse r.body) (str "message") = some j →
          jsTruthy j = true → apiFetch jsParse r = .error j) ∧
      (jsTruthyOpt (jsGetField (parseJSON jsParse r.body) (str "detail")) = false →
        jsTruthyOpt (jsGetField (parseJSON jsParse r.body) (str "message")) = false →
          apiFetch jsParse r =
            .error (.string (str "Erro ao comunicar com o servidor")))) ∧
    parseJSON jsParse [] = none ∧
    (∀ t u, jsParse t = .error u → parseJSON jsParse t = none) := by
  refine ⟨fun hok => ?_, fun hok => ⟨?_, ?_, ?_⟩, ?_, ?_⟩
  · simp [apiFetch, hok]
  · intro j hd ht
    simp [apiFetch, apiErrorMessage, hok, hd, jsTruthyOpt, ht]
  · intro hdf j hm ht
    have h1 : ¬ (jsTruthyOpt (jsGetField (parseJSON jsParse r.body) (str "detail")) = true) := by
      simp [hdf]
    have h2 : jsTruthyOpt (jsGetField (parseJSON jsParse r.body) (str "message")) = true := by
      simp [jsTruthyOpt, hm, ht]
    simp only [apiFetch, apiErrorMessage, hok, Bool.false_eq_true, if_false]
    rw [if_neg h1, if_pos h2, hm]
    rfl
  · intro hdf hmf
    simp [apiFetch, apiErrorMessage, hok, hdf, hmf]
  · simp [parseJSON]
  · intro t u hp
    simp [parseJSON, hp]

/-- Witness for C9: a non-ok response with a truthy `detail` throws that
detail; an ok response returns its payload; a rejected body parses to
`null`. -/
theorem C9_apiFetch_error_contract_witness :
    apiFetch (fun _ => .ok (.object [(str "detail", .string (str "Imovel invalido"))]))
      { ok := false, body := str "x" } = .error (.string (str "Imovel invalido")) ∧
    apiFetch (fun _ => .error ()) { ok := true, body := str "x" } =
      .ok (parseJSON (fun _ => .error ()) (str "x")) ∧
    parseJSON (fun _ => .error ()) (str "nonsense") = none := by
  refine ⟨?_, ?_, ?_⟩
  · exact ((C9_apiFetch_error_contract
      (fun _ => .ok (.object [(str "detail", .string (str "Imovel invalido"))]))
      { ok := false, body := str "x" }).2.1 rfl).1
      (.string (str "Imovel invalido")) rfl (by decide)
  · exact (C9_apiFetch_error_contract (fun _ => .error ())
      { ok := true, body := str "x" }).1 rfl
  · exact (C9_apiFetch_error_contract (fun _ => .error ())
      { ok := true, body := str "x" }).2.2.2 (str "nonsense") () rfl

/-- Membership in a business segment. -/
theorem mem_businessSegment (bt : BusinessType) (rows : List EnrichedListing)
    (x : EnrichedListing) :
    x ∈ businessSegment bt rows ↔ x ∈ rows ∧ x.listing.businessType = bt := by
  simp [businessSegment, List.mem_filter]

/-- Membership in a combo segment. -/
theorem mem_comboSegment (s : Str) (bt : BusinessType) (rows : List EnrichedListing)
    (x : EnrichedListing) :
    x ∈ comboSegment s bt rows ↔
      x ∈ rows ∧ x.listing.source = s ∧ x.listing.businessType = bt := by
  simp [comboSegment, List.mem_filter, and_assoc]

/-- The primary training segment is contained in the sale segment. -/
theorem primaryTraining_subset_sale (pref : Option Str) (rows : List EnrichedListing)
    (x : EnrichedListing) (hx : x ∈ primaryTrainingSegment pref rows) :
    x ∈ businessSegment .venda rows := by
  cases pref with
  | none => simpa [primaryTrainingSegment] using hx
  | some s =>
    simp only [primaryTrainingSegment] at hx
    split at hx
    · exact List.mem_of_mem_filter hx
    · exact hx

/-- C4: a rental row always lands in the rental segment and in no
sale-price training Dataset (neither the sale split, nor a sale combo, nor
the primary training Dataset); the primary training Dataset holds only sale
rows; and every row is in exactly one business-type segment. -/
theorem C4_rental_segregation (pref : Option Str) (rows : List EnrichedListing)
    (r : EnrichedListing) (hr : r ∈ rows)
    (hbt : r.listing.businessType = .aluguel) :
    r ∈ businessSegment .aluguel rows ∧
    (∀ key ds, (key, ds) ∈ segmentDatasets pref rows → isSaleTrainingKey key → r ∉ ds) ∧
    (∀ x ∈ primaryTrainingSegment pref rows, x.listing.businessType = .venda) ∧
    (∀ x ∈ rows, Xor'
      (x ∈ businessSegment .venda rows) (x ∈ businessSegment .aluguel rows)) := by
  have hprim : ∀ x ∈ primaryTrainingSegment pref rows, x.listing.businessType = .venda :=
    fun x hx => ((mem_businessSegment _ _ _).mp (primaryTraining_subset_sale pref rows x hx)).2
  refine ⟨(mem_businessSegment _ _ _).mpr ⟨hr, hbt⟩, ?_, hprim, ?_⟩
  · intro key ds hmem hsale
    simp only [segmentDatasets, List.mem_cons, List.mem_append, List.mem_map,
      List.mem_flatMap, List.mem_filter, Prod.mk.injEq] at hmem
    rcases hmem with (((⟨hk, hd⟩ | ⟨s, hs, hk, hd⟩) | ⟨hk, hd⟩ | ⟨hk, hd⟩ | hfalse) |
      ⟨s, hs, bt, ⟨hbtalt, hne⟩, hk, hd⟩) | ⟨hk, hd⟩ | hfalse
    · subst hk; simp [isSaleTrainingKey] at hsale
    · subst hk; simp [isSaleTrainingKey] at hsale
    · subst hk; subst hd
      intro hin
      rw [mem_businessSegment] at hin
      rw [hin.2] at hbt
      cases hbt
    · subst hk; simp [isSaleTrainingKey] at hsale
    · exact absurd hfalse (List.not_mem_nil _)
    · subst hk; subst hd
      intro hin
      rw [mem_comboSegment] at hin
      cases bt with
      | venda => rw [hin.2.2] at hbt; cases hbt
      | aluguel => simp [isSaleTrainingKey] at hsale
    · subst hk; subst hd
      intro hin
      have := hprim r hin
      rw [this] at hbt
      cases hbt
    · exact absurd hfalse (List.not_mem_nil _)
  · intro x hx
    cases hb : x.listing.businessType with
    | venda =>
      exact Or.inl ⟨(mem_businessSegment _ _ _).mpr ⟨hx, hb⟩,
        fun hmem => by
          have := ((mem_businessSegment _ _ _).mp hmem).2
          rw [hb] at this; cases this⟩
    | aluguel =>
      exact Or.inr ⟨(mem_businessSegment _ _ _).mpr ⟨hx, hb⟩,
        fun hmem => by
          have := ((mem_businessSegment _ _ _).mp hmem).2
          rw [hb] at this; cases this⟩

/-- Witness for C4 at a one-row rental dataset. -/
theorem C4_rental_segregation_witness :
    (⟨⟨str "olx", .aluguel, 1500, 60, 2, 1, str "casa", str "Centro", str "Teresina"⟩,
        .unresolved (str "Centro"), none⟩ : EnrichedListing) ∈
      businessSegment .aluguel
        [⟨⟨str "olx", .aluguel, 1500, 60, 2, 1, str "casa", str "Centro", str "Teresina"⟩,
          .unresolved (str "Centro"), none⟩] ∧
    (∀ x ∈ primaryTrainingSegment (some (str "olx"))
        [⟨⟨str "olx", .aluguel, 1500, 60, 2, 1, str "casa", str "Centro", str "Teresina"⟩,
          .unresolved (str "Centro"), none⟩],
      x.listing.businessType = .venda) := by
  have h := C4_rental_segregation (some (str "olx"))
    [⟨⟨str "olx", .aluguel, 1500, 60, 2, 1, str "casa", str "Centro", str "Teresina"⟩,
      .unresolved (str "Centro"), none⟩]
    ⟨⟨str "olx", .aluguel, 1500, 60, 2, 1, str "casa", str "Centro", str "Teresina"⟩,
      .unresolved (str "Centro"), none⟩
    (List.mem_singleton.mpr rfl) rfl
  exact ⟨h.1, h.2.2.1⟩

/-- The fold of the selection policy returns its accumulator or a list
element, and its selection key is minimal among them. -/
theorem selectBetter_spec (l : List Candidate) :
    ∀ acc : Candidate,
      (selectBetter acc l = acc ∨ selectBetter acc l ∈ l) ∧
      (∀ c : Candidate, (c = acc ∨ c ∈ l) →
        selectionKey (selectBetter acc l) ≤ selectionKey c) := by
  induction l with
  | nil =>
    intro acc
    refine ⟨Or.inl rfl, fun c hc => ?_⟩
    rcases hc with rfl | hc
    · simp [selectBetter]
    · cases hc
  | cons x xs ih =>
    intro acc
    have hstep : selectBetter acc (x :: xs) =
        selectBetter (if selectionKey x < selectionKey acc then x else acc) xs := rfl
    obtain ⟨hmem, hmin⟩ := ih (if selectionKey x < selectionKey acc then x else acc)
    constructor
    · rw [hstep]
      rcases hmem with heq | hmem
      · rw [heq]
        split
        · exact Or.inr (List.mem_cons_self _ _)
        · exact Or.inl rfl
      · exact Or.inr (List.mem_cons_of_mem _ hmem)
    · intro c hc
      rw [hstep]
      have hacc' : selectionKey (if selectionKey x < selectionKey acc then x else acc) ≤
          selectionKey acc := by
        split
        · exact le_of_lt (by assumption)
        · exact le_refl _
      have hx' : selectionKey (if selectionKey x < selectionKey acc then x else acc) ≤
          selectionKey x := by
        split
        · exact le_refl _
        · exact not_lt.mp (by assumption)
      have hres := hmin _ (Or.inl rfl)
      rcases hc with rfl | hc
      · exact le_trans hres hacc'
      · rcases List.mem_cons.mp hc with rfl | hc
        · exact le_trans hres hx'
        · exact hmin c (Or.inr hc)

/-- Unfold the lexicographic selection key into its component orderings. -/
theorem selectionKey_le_components {a b : Candidate}
    (h : selectionKey a ≤ selectionKey b) :
    a.mae ≤ b.mae ∧
    (a.mae = b.mae → a.rmse ≤ b.rmse) ∧
    (a.mae = b.mae → a.rmse = b.rmse → a.nEstimators ≤ b.nEstimators) ∧
    (a.mae = b.mae → a.rmse = b.rmse → a.nEstimators = b.nEstimators →
      a.maxDepth ≤ b.maxDepth) := by
  unfold selectionKey at h
  rw [Prod.Lex.le_iff] at h
  rcases h with h1 | ⟨h1, h2⟩
  · simp only at h1
    refine ⟨le_of_lt h1, fun he => ?_, fun he _ => ?_, fun he _ _ => ?_⟩ <;>
      (rw [he] at h1; exact absurd h1 (lt_irrefl _))
  · simp only at h1 h2
    rw [Prod.Lex.le_iff] at h2
    rcases h2 with h2 | ⟨h2, h3⟩
    · simp only at h2
      refine ⟨le_of_eq h1, fun _ => le_of_lt h2, fun _ he => ?_, fun _ he _ => ?_⟩ <;>
        (rw [he] at h2; exact absurd h2 (lt_irrefl _))
    · simp only at h2 h3
      rw [Prod.Lex.le_iff] at h3
      rcases h3 with h3 | ⟨h3, h4⟩
      · simp only at h3
        refine ⟨le_of_eq h1, fun _ => le_of_eq h2, fun _ _ => le_of_lt h3,
          fun _ _ he => ?_⟩
        rw [he] at h3; exact absurd h3 (lt_irrefl _)
      · simp only at h3 h4
        exact ⟨le_of_eq h1, fun _ => le_of_eq h2, fun _ _ => le_of_eq h3,
          fun _ _ _ => h4⟩

/-- C6: for a non-empty candidate set the exported definitive model is the
candidate with the lowest held-out MAE, ties broken by lowest RMSE, then by
fewest estimators, then by shallowest depth; the export bundles it with the
PreprocessingArtifact that produced its input features. -/
theorem C6_definitive_selection (candidates : List Candidate)
    (art : PreprocessingArtifact) (h : candidates ≠ []) :
    ∃ best : Candidate,
      selectDefinitive candidates = some best ∧ best ∈ candidates ∧
      (∀ c ∈ candidates, best.mae ≤ c.mae) ∧
      (∀ c ∈ candidates, best.mae = c.mae → best.rmse ≤ c.rmse) ∧
      (∀ c ∈ candidates, best.mae = c.mae → best.rmse = c.rmse →
        best.nEstimators ≤ c.nEstimators) ∧
      (∀ c ∈ candidates, best.mae = c.mae → best.rmse = c.rmse →
        best.nEstimators = c.nEstimators → best.maxDepth ≤ c.maxDepth) ∧
      exportDefinitive candidates art = some ⟨best, art⟩ := by
  match candidates, h with
  | c :: rest, _ =>
    obtain ⟨hmem, hmin⟩ := selectBetter_spec rest c
    refine ⟨selectBetter c rest, rfl, ?_, ?_, ?_, ?_, ?_, ?_⟩
    · rcases hmem with heq | hmem
      · rw [heq]; exact List.mem_cons_self _ _
      · exact List.mem_cons_of_mem _ hmem
    · intro d hd
      exact (selectionKey_le_components
        (hmin d (by rcases List.mem_cons.mp hd with rfl | hd; exact Or.inl rfl; exact Or.inr hd))).1
    · intro d hd
      exact (selectionKey_le_components
        (hmin d (by rcases List.mem_cons.mp hd with rfl | hd; exact Or.inl rfl; exact Or.inr hd))).2.1
    · intro d hd
      exact (selectionKey_le_components
        (hmin d (by rcases List.mem_cons.mp hd with rfl | hd; exact Or.inl rfl; exact Or.inr hd))).2.2.1
    · intro d hd
      exact (selectionKey_le_components
        (hmin d (by rcases List.mem_cons.mp hd with rfl | hd; exact Or.inl rfl; exact Or.inr hd))).2.2.2
    · simp [exportDefinitive, selectDefinitive]

/-- Witness for C6 at a concrete two-candidate run. -/
theorem C6_definitive_selection_witness :
    ∃ best : Candidate,
      selectDefinitive
        [⟨str "gb", 300, 6, 25000, 41000, 8/10⟩, ⟨str "xgb", 200, 4, 21000, 39000, 9/10⟩] =
        some best ∧
      best ∈
        [(⟨str "gb", 300, 6, 25000, 41000, 8/10⟩ : Candidate),
          ⟨str "xgb", 200, 4, 21000, 39000, 9/10⟩] ∧
      (∀ c ∈ [(⟨str "gb", 300, 6, 25000, 41000, 8/10⟩ : Candidate),
          ⟨str "xgb", 200, 4, 21000, 39000, 9/10⟩], best.mae ≤ c.mae) ∧
      (∀ c ∈ [(⟨str "gb", 300, 6, 25000, 41000, 8/10⟩ : Candidate),
          ⟨str "xgb", 200, 4, 21000, 39000, 9/10⟩], best.mae = c.mae → best.rmse ≤ c.rmse) ∧
      (∀ c ∈ [(⟨str "gb", 300, 6, 25000, 41000, 8/10⟩ : Candidate),
          ⟨str "xgb", 200, 4, 21000, 39000, 9/10⟩], best.mae = c.mae → best.rmse = c.rmse →
        best.nEstimators ≤ c.nEstimators) ∧
      (∀ c ∈ [(⟨str "gb", 300, 6, 25000, 41000, 8/10⟩ : Candidate),
          ⟨str "xgb", 200, 4, 21000, 39000, 9/10⟩], best.mae = c.mae → best.rmse = c.rmse →
        best.nEstimators = c.nEstimators → best.maxDepth ≤ c.maxDepth) ∧
      exportDefinitive
        [⟨str "gb", 300, 6, 25000, 41000, 8/10⟩, ⟨str "xgb", 200, 4, 21000, 39000, 9/10⟩]
        ⟨[str "casa"], [str "Centro"], [str "Teresina"]⟩ =
        some ⟨best, ⟨[str "casa"], [str "Centro"], [str "Teresina"]⟩⟩ :=
  C6_definitive_selection
    [⟨str "gb", 300, 6, 25000, 41000, 8/10⟩, ⟨str "xgb", 200, 4, 21000, 39000, 9/10⟩]
    ⟨[str "casa"], [str "Centro"], [str "Teresina"]⟩ (by simp)

/-- No lowercase ASCII letter is an uppercase one. -/
theorem lower_not_upper : ∀ x ∈ LOWER, x ∉ UPPER := by decide

/-- The first components of the upper→lower table are the uppercase letters. -/
theorem zip_fst_upper : (UPPER.zip LOWER).map Prod.fst = UPPER := by decide

/-- The first components of the lower→upper table are the lowercase letters. -/
theorem zip_fst_lower : (LOWER.zip UPPER).map Prod.fst = LOWER := by decide

/-- Lowercasing a character twice is the same as lowercasing it once. -/
theorem jsToLowerChar_idem (c : Char) :
    jsToLowerChar (jsToLowerChar c) = jsToLowerChar c := by
  cases hf : (UPPER.zip LOWER).find? (fun p => p.1 == c) with
  | none => simp [jsToLowerChar, hf]
  | some p =>
    have hmem : p ∈ UPPER.zip LOWER := List.mem_of_find?_eq_some hf
    have hl : p.2 ∈ LOWER := (List.of_mem_zip hmem).2
    have hfc : jsToLowerChar c = p.2 := by simp [jsToLowerChar, hf]
    rw [hfc]
    have hnone : (UPPER.zip LOWER).find? (fun q => q.1 == p.2) = none := by
      rw [List.find?_eq_none]
      intro q hq
      have hqu : q.1 ∈ UPPER := by
        have := List.mem_map_of_mem Prod.fst hq
        rwa [zip_fst_upper] at this
      simp only [beq_iff_eq]
      intro hqe
      exact lower_not_upper p.2 hl (hqe ▸ hqu)
    simp [jsToLowerChar, hnone]

/-- The result of lowercasing is never an uppercase ASCII letter. -/
theorem jsToLowerChar_not_upper (c : Char) : ¬ isUpperAscii (jsToLowerChar c) := by
  cases hf : (UPPER.zip LOWER).find? (fun p => p.1 == c) with
  | none =>
    intro hup
    have hfc : jsToLowerChar c = c := by simp [jsToLowerChar, hf]
    rw [hfc] at hup
    rw [List.find?_eq_none] at hf
    have hcz : c ∈ (UPPER.zip LOWER).map Prod.fst := by rw [zip_fst_upper]; exact hup
    obtain ⟨q, hq, hqe⟩ := List.mem_map.mp hcz
    exact absurd (beq_iff_eq.mpr hqe) (by simpa using hf q hq)
  | some p =>
    have hmem : p ∈ UPPER.zip LOWER := List.mem_of_find?_eq_some hf
    have hl : p.2 ∈ LOWER := (List.of_mem_zip hmem).2
    have hfc : jsToLowerChar c = p.2 := by simp [jsToLowerChar, hf]
    rw [hfc]
    exact lower_not_upper p.2 hl

/-- Lowercasing maps only the space character to a space. -/
theorem jsToLowerChar_space_iff (c : Char) : jsToLowerChar c = ' ' ↔ c = ' ' := by
  constructor
  · intro h
    cases hf : (UPPER.zip LOWER).find? (fun p => p.1 == c) with
    | none => rwa [show jsToLowerChar c = c from by simp [jsToLowerChar, hf]] at h
    | some p =>
      have hmem : p ∈ UPPER.zip LOWER := List.mem_of_find?_eq_some hf
      have hl : p.2 ∈ LOWER := (List.of_mem_zip hmem).2
      have hfc : jsToLowerChar c = p.2 := by simp [jsToLowerChar, hf]
      rw [hfc] at h
      rw [h] at hl
      exact absurd hl (by decide)
  · intro h
    rw [h]
    decide

/-- Uppercasing yields an uppercase letter whenever it yields a letter at
all. -/
theorem jsToUpperChar_of_letter (c : Char) :
    isAsciiLetter (jsToUpperChar c) → isUpperAscii (jsToUpperChar c) := by
  cases hf : (LOWER.zip UPPER).find? (fun p => p.1 == c) with
  | none =>
    intro hl
    have hfc : jsToUpperChar c = c := by simp [jsToUpperChar, hf]
    rw [hfc] at hl ⊢
    rcases hl with hup | hlow
    · exact hup
    · exfalso
      rw [List.find?_eq_none] at hf
      have hcz : c ∈ (LOWER.zip UPPER).map Prod.fst := by rw [zip_fst_lower]; exact hlow
      obtain ⟨q, hq, hqe⟩ := List.mem_map.mp hcz
      exact absurd (beq_iff_eq.mpr hqe) (by simpa using hf q hq)
  | some p =>
    intro _
    have hmem : p ∈ LOWER.zip UPPER := List.mem_of_find?_eq_some hf
    have hu : p.2 ∈ UPPER := (List.of_mem_zip hmem).2
    have hfc : jsToUpperChar c = p.2 := by simp [jsToUpperChar, hf]
    rw [hfc]
    exact hu

/-- Lowercasing a string twice is the same as lowercasing it once. -/
theorem jsToLower_idem (s : Str) : jsToLower (jsToLower s) = jsToLower s := by
  induction s with
  | nil => rfl
  | cons c rest ih =>
    simp only [jsToLower, List.map_cons] at ih ⊢
    rw [jsToLowerChar_idem, ih]

/-- `split(' ')` never returns an empty list of components. -/
theorem splitSp_ne_nil (s : Str) : splitSp s ≠ [] := by
  cases s with
  | nil => simp [splitSp]
  | cons c rest =>
    by_cases hc : c = ' '
    · simp [splitSp, hc]
    · simp only [splitSp, hc, if_false]
      cases splitSp rest <;> simp

/-- Every character of a component of `split(' ')` is a character of the
string. -/
theorem splitSp_chars_subset (s : Str) :
    ∀ w ∈ splitSp s, ∀ c ∈ w, c ∈ s := by
  induction s with
  | nil =>
    intro w hw c hc
    simp [splitSp] at hw
    subst hw
    cases hc
  | cons a rest ih =>
    intro w hw c hc
    by_cases ha : a = ' '
    · simp only [splitSp, ha, if_true] at hw
      rcases List.mem_cons.mp hw with rfl | hw
      · cases hc
      · exact List.mem_cons_of_mem _ (ih w hw c hc)
    · simp only [splitSp, ha, if_false] at hw
      cases hsp : splitSp rest with
      | nil => exact absurd hsp (splitSp_ne_nil rest)
      | cons w0 ws =>
        rw [hsp] at hw
        rcases List.mem_cons.mp hw with rfl | hw
        · rcases List.mem_cons.mp hc with rfl | hc
          · exact List.mem_cons_self _ _
          · exact List.mem_cons_of_mem _
              (ih w0 (hsp ▸ List.mem_cons_self _ _) c hc)
        · exact List.mem_cons_of_mem _
            (ih w (hsp ▸ List.mem_cons_of_mem _ hw) c hc)

/-- Lowercasing commutes with duplicating spaces. -/
theorem jsToLower_dupSpaces (s : Str) :
    jsToLower (dupSpaces s) = dupSpaces (jsToLower s) := by
  induction s with
  | nil => rfl
  | cons c rest ih =>
    by_cases hc : c = ' '
    · subst hc
      simp only [dupSpaces, jsToLower, List.map_cons, if_true]
      rw [show jsToLowerChar ' ' = ' ' from by decide]
      simp only [if_true, reduceIte]
      simpa [jsToLower] using ih
    · have hc2 : ¬ jsToLowerChar c = ' ' := fun h => hc ((jsToLowerChar_space_iff c).mp h)
      simp only [dupSpaces, jsToLower, List.map_cons, hc, hc2, if_false, reduceIte]
      simpa [jsToLower] using ih

/-- Duplicating the spaces of a string does not change its non-empty words,
nor the first component of its split. -/
theorem splitSp_dupSpaces (s : Str) :
    (splitSp (dupSpaces s)).headI = (splitSp s).headI ∧
    wordsOf (dupSpaces s) = wordsOf s := by
  induction s with
  | nil => exact ⟨rfl, rfl⟩
  | cons a rest ih =>
    by_cases ha : a = ' '
    · subst ha
      constructor
      · simp [dupSpaces, splitSp]
      · simp only [wordsOf, dupSpaces, splitSp, if_true, reduceIte, List.filter]
        simpa [wordsOf] using ih.2
    · cases hd : splitSp (dupSpaces rest) with
      | nil => exact absurd hd (splitSp_ne_nil _)
      | cons w0 ws0 =>
        cases hs : splitSp rest with
        | nil => exact absurd hs (splitSp_ne_nil _)
        | cons w1 ws1 =>
          have hw01 : w0 = w1 := by
            have := ih.1
            rw [hd, hs] at this
            simpa using this
          subst hw01
          have hwords : List.filter (fun w => w ≠ []) (w0 :: ws0) =
              List.filter (fun w => w ≠ []) (w0 :: ws1) := by
            have := ih.2
            simp only [wordsOf] at this
            rw [hd, hs] at this
            exact this
          have htails : List.filter (fun w => w ≠ []) ws0 =
              List.filter (fun w => w ≠ []) ws1 := by
            by_cases hw0 : w0 = []
            · simpa [List.filter, hw0] using hwords
            · simp only [List.filter_cons] at hwords
              simp only [decide_not, hw0] at hwords
              simpa using hwords
          constructor
          · simp [dupSpaces, splitSp, ha, hd, hs]
          · simp only [wordsOf, dupSpaces, splitSp, ha, if_false, reduceIte, hd, hs]
            have hne : (a :: w0) ≠ [] := by simp
            simp only [List.filter_cons, hne, decide_not]
            simpa using htails

/-- Every word produced by the title-casing map that is not a kept
connective starts with an uppercase letter when it starts with a letter,
provided the input words carry no uppercase characters. -/
theorem mapWords_head_upper (ws : List Str) :
    ∀ i : Nat, (∀ w ∈ ws, ∀ c ∈ w, ¬ isUpperAscii c) →
      ∀ w ∈ mapWords i ws, w ∉ TITLE_CASE_EXCEPTIONS →
        ∀ c : Char, w.head? = some c → isAsciiLetter c → isUpperAscii c := by
  induction ws with
  | nil =>
    intro i _ w hw
    simp [mapWords] at hw
  | cons v vs ih =>
    intro i hlow w hw hex c hc hl
    simp only [mapWords] at hw
    rcases List.mem_cons.mp hw with hweq | hwtail
    · by_cases hcond : i ≠ 0 ∧ v ∈ TITLE_CASE_EXCEPTIONS
      · rw [if_pos hcond] at hweq
        subst hweq
        exact absurd hcond.2 hex
      · rw [if_neg hcond] at hweq
        subst hweq
        cases v with
        | nil => cases hc
        | cons c0 r =>
          simp only [capitalizeWord, List.head?] at hc
          have hceq : jsToUpperChar c0 = c := by injection hc
          rw [← hceq] at hl ⊢
          exact jsToUpperChar_of_letter c0 hl
    · exact ih (i + 1) (fun u hu => hlow u (List.mem_cons_of_mem _ hu)) w hwtail hex c hc hl

/-- C2 counterexample: the claim says connective words stay lowercase, but
the connective `de` in first position is capitalized by `titleCase`. -/
theorem C2_counterexample :
    titleCase (str "de tal") = str "De Tal" ∧
    str "de" ∈ TITLE_CASE_EXCEPTIONS ∧
    titleCase (str "de tal") ≠ str "de Tal" := by
  refine ⟨?_, ?_, ?_⟩ <;> decide

/-- C2 (amended): `titleCase` is case-insensitive and whitespace-collapsing;
it title-cases word by word, keeping connective words lowercase only when
they are not the first word (the first word is always capitalized); every
output word that is not a kept connective starts with its first character
uppercased — an uppercase letter whenever it is a letter. -/
theorem C2_titleCase_normalization (s : Str) :
    titleCase (jsToLower s) = titleCase s ∧
    titleCase (dupSpaces s) = titleCase s ∧
    titleCase s = joinSp (mapWords 0 (wordsOf (jsToLower s))) ∧
    (∀ w ∈ mapWords 0 (wordsOf (jsToLower s)), w ∉ TITLE_CASE_EXCEPTIONS →
      ∀ c : Char, w.head? = some c → isAsciiLetter c → isUpperAscii c) := by
  refine ⟨?_, ?_, rfl, ?_⟩
  · unfold titleCase
    rw [jsToLower_idem]
  · unfold titleCase
    rw [jsToLower_dupSpaces, (splitSp_dupSpaces (jsToLower s)).2]
  · apply mapWords_head_upper
    intro w hw c hc
    have hw' : w ∈ splitSp (jsToLower s) := List.mem_of_mem_filter hw
    have hcs : c ∈ jsToLower s := splitSp_chars_subset (jsToLower s) w hw' c hc
    obtain ⟨c0, _, hc0⟩ := List.mem_map.mp hcs
    rw [← hc0]
    exact jsToLowerChar_not_upper c0

/-- Witness for C2 at the location string `rua de baixo`: case and spacing
do not matter, and the non-connective first word comes out capitalized. -/
theorem C2_titleCase_normalization_witness :
    titleCase (jsToLower (str "rUa dE Baixo")) = titleCase (str "rUa dE Baixo") ∧
    titleCase (dupSpaces (str "rUa dE Baixo")) = titleCase (str "rUa dE Baixo") ∧
    isUpperAscii 'R' := by
  refine ⟨(C2_titleCase_normalization (str "rUa dE Baixo")).1,
    (C2_titleCase_normalization (str "rUa dE Baixo")).2.1,
    (C2_titleCase_normalization (str "rUa dE Baixo")).2.2.2 (str "Rua") (by decide)
      (by decide) 'R' (by decide) (by decide)⟩
